import Mathlib

/-!
Verification of the tab-cache, search/ranking and bulk tab-close logic of the
mcp-android-chrome server, as a shallow embedding in Lean.

The embedded functions are translated from the Go sources:
* `Tab` from internal/loader/types.go;
* the cache refresh `fetchAndCacheAndroidTabs` from the MCP server file;
* the search pipeline `searchTabs` (filtering, scoring, the exchange sort,
  truncation) from the same file;
* the close-tab coordinators `closeTab`, `closeTabsBulk`, `matchesPattern`
  from the same file, and the driver operations `CloseTab` / `CloseTabs`
  from internal/driver/android.go.

External I/O (ADB start, tab fetch over HTTP, close POSTs) is modelled by
explicit outcome parameters, and the calls a run would issue are returned as
an explicit event trace.

Relevance scores are Go float64 values; every score the code can produce is
a sum of the constants 2.0, 1.5, 1.0, 0.5 (all small multiples of one half,
so every intermediate sum is exactly representable in binary64 and float
addition is exact on them), or the lone constant 0.1 assigned - never added -
in the unfiltered case, where every tab gets that same constant.  Float
comparison therefore coincides with rational comparison of the exact values,
and scores are embedded as integers in units of tenths (2.0 as 20, 0.1 as 1).
-/

namespace McpAndroidChrome

/-- Tab record (internal/loader/types.go): ID, Title, URL, Type. -/
structure Tab where
  id : String
  title : String
  url : String
  type : String := ""
  deriving Repr, DecidableEq

/-! ## Tab cache (server struct fields tabCache / cacheSize / lastUpdated) -/

/-- The cache-related mutable state of `TabTransferServer`: the `tabCache`
slice, the configured `cacheSize` bound, and the `lastUpdated` timestamp
(`time.Time` is abstracted to a `Nat` tick; the zero value stands for
"never populated"). -/
structure CacheState where
  tabCache : List Tab
  cacheSize : Nat
  lastUpdated : Nat
  deriving Repr, DecidableEq

/-- Outcome of the I/O prefix of `fetchAndCacheAndroidTabs`: starting the
Android driver may fail, then `LoadTabs` may fail, else it yields a tab
list. -/
inductive FetchOutcome where
  | startErr (e : String)
  | loadErr (e : String)
  | ok (tabs : List Tab)
  deriving Repr, DecidableEq

/-- `fetchAndCacheAndroidTabs`: on a start failure or a load failure the
function returns the wrapped error before touching the cache fields; on
success it replaces `tabCache` with the fetched list truncated to
`cacheSize` (`tabs[:s.cacheSize]` only when `len(tabs) > s.cacheSize`) and
stamps `lastUpdated` with the current time. -/
def fetchAndCacheAndroidTabs (s : CacheState) (f : FetchOutcome) (now : Nat) :
    CacheState × Option String :=
  match f with
  | .startErr e => (s, some ("failed to start Android driver: " ++ e))
  | .loadErr e => (s, some ("failed to load tabs: " ++ e))
  | .ok tabs =>
    let newCache := if tabs.length > s.cacheSize then tabs.take s.cacheSize else tabs
    ({ s with tabCache := newCache, lastUpdated := now }, none)

/-- C4: For every fetched tab list F, after a successful refresh the cache
snapshot equals F in the same order when |F| <= capacity, equals
F[:capacity] in fetch order when |F| > capacity, and in all cases the
number of cached entries is at most the capacity. -/
theorem C4_refresh_truncation (s : CacheState) (F : List Tab) (now : Nat) :
    (F.length ≤ s.cacheSize →
      ((fetchAndCacheAndroidTabs s (.ok F) now).1).tabCache = F) ∧
    (F.length > s.cacheSize →
      ((fetchAndCacheAndroidTabs s (.ok F) now).1).tabCache = F.take s.cacheSize) ∧
    ((fetchAndCacheAndroidTabs s (.ok F) now).1).tabCache.length ≤ s.cacheSize := by
  refine ⟨fun h => ?_, fun h => ?_, ?_⟩
  · simp only [fetchAndCacheAndroidTabs]
    rw [if_neg (by omega)]
  · simp only [fetchAndCacheAndroidTabs]
    rw [if_pos h]
  · by_cases h : F.length > s.cacheSize
    · simp only [fetchAndCacheAndroidTabs]
      rw [if_pos h]
      simp
    · simp only [fetchAndCacheAndroidTabs]
      rw [if_neg h]
      omega

/-- Witness for C4 at a concrete input: capacity 1, a two-tab fetch is
truncated to its first element. -/
theorem C4_refresh_truncation_witness :
    ((fetchAndCacheAndroidTabs ⟨[], 1, 0⟩
        (.ok [⟨"1", "A", "u1", ""⟩, ⟨"2", "B", "u2", ""⟩]) 5).1).tabCache
      = [⟨"1", "A", "u1", ""⟩] :=
  (C4_refresh_truncation ⟨[], 1, 0⟩ [⟨"1", "A", "u1", ""⟩, ⟨"2", "B", "u2", ""⟩] 5).2.1
    (by decide)

/-- C5: a refresh that fails (driver start failure or tab fetch failure)
leaves the whole cache state - entries, capacity and last-updated stamp -
exactly equal to its prior value and returns the wrapped error. -/
theorem C5_failed_refresh_atomic (s : CacheState) (now : Nat) (e : String) :
    fetchAndCacheAndroidTabs s (.startErr e) now
        = (s, some ("failed to start Android driver: " ++ e)) ∧
    fetchAndCacheAndroidTabs s (.loadErr e) now
        = (s, some ("failed to load tabs: " ++ e)) := by
  exact ⟨rfl, rfl⟩

/-! ## Case-insensitive text matching (strings.ToLower / Contains / HasPrefix / EqualFold)

Go's string functions work on UTF-8 text; they are embedded at the rune
(Char) level, which agrees with the byte level on the ASCII inputs used in
all concrete witnesses. -/

/-- `hasPref needle hay`: `needle` is a leading segment of `hay`
(Go strings.HasPrefix at the rune level). -/
def hasPref : List Char → List Char → Bool
  | [], _ => true
  | _ :: _, [] => false
  | a :: as, b :: bs => a == b && hasPref as bs

/-- `hasSub needle hay`: `needle` occurs contiguously inside `hay`
(Go strings.Contains at the rune level; an empty needle always matches). -/
def hasSub (needle : List Char) : List Char → Bool
  | [] => hasPref needle []
  | b :: bs => hasPref needle (b :: bs) || hasSub needle bs

/-- Go `strings.ToLower` as a rune-wise map (Char.toLower is ASCII-only,
which agrees with Go's mapping on the ASCII text of every concrete
witness; the general theorems treat text opaquely). -/
def lowerChars (s : String) : List Char :=
  s.data.map Char.toLower

/-- Go `strings.Contains(s, sub)`. -/
def strContains (s sub : String) : Bool :=
  hasSub sub.data s.data

/-- `strings.Contains(strings.ToLower(s), strings.ToLower(sub))` - the
case-insensitive containment test used throughout the search and filter
code. -/
def containsCI (s sub : String) : Bool :=
  hasSub (lowerChars sub) (lowerChars s)

/-- Go `strings.EqualFold(a, b)` (case-insensitive equality; embedded as
equality after lowercasing, which agrees with Go's fold on ASCII). -/
def equalFold (a b : String) : Bool :=
  lowerChars a == lowerChars b

/-- `strings.HasPrefix(strings.ToLower(s), strings.ToLower(pre))` as used
for the query-at-start bonus. -/
def startsWithCI (s pre : String) : Bool :=
  hasPref (lowerChars pre) (lowerChars s)

/-! ## Search and ranking (`searchTabs`) -/

/-- Arguments of the `search_tabs` tool (`SearchTabsArgs`); `limit` is a Go
`int`. -/
structure SearchTabsArgs where
  query : String
  domain : String
  title : String
  url : String
  limit : Int
  format : String := ""
  deriving Repr, DecidableEq

/-- `format.SearchResult`: a tab plus its relevance score (score in exact
tenths of the Go float64 value, see the header note). -/
structure SearchResult where
  tab : Tab
  score : Int
  deriving Repr, DecidableEq

/-- The per-tab filter/score block of `searchTabs` (lines 932-1002 of the
server file): returns the final `matches` flag and `score` after the
domain, title, url and query blocks and the no-filter fallback, in source
order. -/
def evalTab (args : SearchTabsArgs) (tab : Tab) : Bool × Int :=
  let p0 : Bool × Int := (true, 0)
  let p1 :=
    if args.domain ≠ "" then
      if containsCI tab.url args.domain then (p0.1, p0.2 + 20) else (false, p0.2)
    else p0
  let p2 :=
    if args.title ≠ "" then
      if containsCI tab.title args.title then (p1.1, p1.2 + 15) else (false, p1.2)
    else p1
  let p3 :=
    if args.url ≠ "" then
      if containsCI tab.url args.url then (p2.1, p2.2 + 10) else (false, p2.2)
    else p2
  let p4 :=
    if args.query ≠ "" then
      let titleMatch := containsCI tab.title args.query
      let urlMatch := containsCI tab.url args.query
      if !titleMatch && !urlMatch then (false, p3.2)
      else
        let sc := p3.2 + (if titleMatch then 10 else 0) + (if urlMatch then 5 else 0)
        let sc := sc + (if equalFold tab.title args.query then 20 else 0)
        let sc := sc + (if startsWithCI tab.title args.query then 10 else 0)
        (p3.1, sc)
    else p3
  if args.query == "" && args.domain == "" && args.title == "" && args.url == "" then
    (true, 1)
  else p4

/-- The collection loop of `searchTabs`: every cached tab whose final
`matches` flag is true contributes a `SearchResult`, in cache order. -/
def collectResults (cachedTabs : List Tab) (args : SearchTabsArgs) : List SearchResult :=
  cachedTabs.filterMap (fun tab =>
    let p := evalTab args tab
    if p.1 then some ⟨tab, p.2⟩ else none)

/-- One outer iteration of the in-place double loop
`for j := i+1; ...; if results[i].Score < results[j].Score { swap }`:
given the current value at position `i` and the values at positions
`i+1..n-1`, returns the final value left at position `i` and the final
values of the tail.  When the current value is smaller than the next slot,
the swap stores the current value in that slot and the larger value
becomes the current one. -/
def pass : SearchResult → List SearchResult → SearchResult × List SearchResult
  | c, [] => (c, [])
  | c, y :: ys =>
    if c.score < y.score then
      let r := pass y ys
      (r.1, c :: r.2)
    else
      let r := pass c ys
      (r.1, y :: r.2)

/-- The outer loop of the sort, fuelled by the list length: iteration `i`
fixes position `i` via `pass`.  The Go loop runs `len-1` iterations; fuel
`len` adds one vacuous iteration on the final singleton (`pass x [] =
(x, [])`), so the results coincide. -/
def exchangeSortAux : Nat → List SearchResult → List SearchResult
  | _, [] => []
  | 0, l => l
  | fuel + 1, x :: xs =>
    let r := pass x xs
    r.1 :: exchangeSortAux fuel r.2

/-- The full sorting step of `searchTabs` (lines 1005-1012). -/
def sortResults (l : List SearchResult) : List SearchResult :=
  exchangeSortAux l.length l

/-- Result of a `searchTabs` run: the early empty-cache message, a Go
runtime fault from an out-of-range slice bound, or the final result list. -/
inductive SearchOutcome where
  | emptyCache
  | sliceFault
  | results (rs : List SearchResult)
  deriving Repr, DecidableEq

/-- The final truncation `if len(results) > args.Limit { results =
results[:args.Limit] }`: slicing with a negative bound is a Go runtime
panic, modelled as `none`. -/
def truncateResults (limit : Int) (results : List SearchResult) :
    Option (List SearchResult) :=
  if (results.length : Int) > limit then
    if limit < 0 then none else some (results.take limit.toNat)
  else some results

/-- `searchTabs` (lines 913-1017): defaults `limit` only when it is
exactly 0, answers the empty cache early, then collects, sorts and
truncates.  (The scoring loop reads only the four text fields of the
arguments, so applying the limit default up front is equivalent to the
source's in-place field update.) -/
def searchTabs (cachedTabs : List Tab) (args : SearchTabsArgs) : SearchOutcome :=
  let lim := if args.limit = 0 then 10 else args.limit
  if cachedTabs.length = 0 then .emptyCache
  else
    match truncateResults lim (sortResults (collectResults cachedTabs args)) with
    | none => .sliceFault
    | some rs => .results rs

/-! ### Correctness of the exchange sort -/

theorem pass_length (c : SearchResult) (ys : List SearchResult) :
    (pass c ys).2.length = ys.length := by
  induction ys generalizing c with
  | nil => rfl
  | cons y ys ih =>
    by_cases h : c.score < y.score
    · simp [pass, h, ih]
    · simp [pass, h, ih]

theorem pass_max (c : SearchResult) (ys : List SearchResult) :
    c.score ≤ (pass c ys).1.score ∧
    ∀ z ∈ (pass c ys).2, z.score ≤ (pass c ys).1.score := by
  induction ys generalizing c with
  | nil => exact ⟨le_refl _, by simp [pass]⟩
  | cons y ys ih =>
    by_cases h : c.score < y.score
    · refine ⟨?_, ?_⟩
      · simp only [pass, if_pos h]
        exact le_trans (le_of_lt h) (ih y).1
      · intro z hz
        simp only [pass, if_pos h] at hz ⊢
        rcases List.mem_cons.1 hz with rfl | hz
        · exact le_trans (le_of_lt h) (ih y).1
        · exact (ih y).2 z hz
    · refine ⟨?_, ?_⟩
      · simp only [pass, if_neg h]
        exact (ih c).1
      · intro z hz
        simp only [pass, if_neg h] at hz ⊢
        rcases List.mem_cons.1 hz with rfl | hz
        · exact le_trans (le_of_not_lt h) (ih c).1
        · exact (ih c).2 z hz

theorem pass_perm (c : SearchResult) (ys : List SearchResult) :
    List.Perm ((pass c ys).1 :: (pass c ys).2) (c :: ys) := by
  induction ys generalizing c with
  | nil => simp [pass]
  | cons y ys ih =>
    by_cases h : c.score < y.score
    · simp only [pass, if_pos h]
      exact (List.Perm.swap c (pass y ys).1 (pass y ys).2).trans ((ih y).cons c)
    · simp only [pass, if_neg h]
      exact ((List.Perm.swap y (pass c ys).1 (pass c ys).2).trans
        ((ih c).cons y)).trans (List.Perm.swap c y ys)

theorem exchangeSortAux_perm :
    ∀ (fuel : Nat) (l : List SearchResult), l.length ≤ fuel →
      List.Perm (exchangeSortAux fuel l) l := by
  intro fuel
  induction fuel with
  | zero =>
    intro l h
    rw [List.length_eq_zero.1 (Nat.le_zero.1 h)]
    exact List.Perm.refl _
  | succ n ih =>
    intro l h
    cases l with
    | nil => exact List.Perm.refl _
    | cons x xs =>
      have hlen : (pass x xs).2.length ≤ n := by
        rw [pass_length]
        simpa using h
      exact ((ih _ hlen).cons (pass x xs).1).trans (pass_perm x xs)

theorem exchangeSortAux_sorted :
    ∀ (fuel : Nat) (l : List SearchResult), l.length ≤ fuel →
      (exchangeSortAux fuel l).Sorted (fun a b => b.score ≤ a.score) := by
  intro fuel
  induction fuel with
  | zero =>
    intro l h
    rw [List.length_eq_zero.1 (Nat.le_zero.1 h)]
    exact List.sorted_nil
  | succ n ih =>
    intro l h
    cases l with
    | nil => exact List.sorted_nil
    | cons x xs =>
      have hlen : (pass x xs).2.length ≤ n := by
        rw [pass_length]
        simpa using h
      rw [show exchangeSortAux (n + 1) (x :: xs)
            = (pass x xs).1 :: exchangeSortAux n (pass x xs).2 from rfl,
        List.sorted_cons]
      refine ⟨fun z hz => ?_, ih _ hlen⟩
      exact (pass_max x xs).2 z ((exchangeSortAux_perm n _ hlen).mem_iff.1 hz)

/-- Modelled from the spec: the stable descending sort the spec asks for -
a fold-in insertion sort in which an element entering from the left of the
input is placed before every already-placed element of equal score. -/
def insertDescStable (x : SearchResult) : List SearchResult → List SearchResult
  | [] => [x]
  | y :: ys => if x.score ≥ y.score then x :: y :: ys else y :: insertDescStable x ys

/-- Modelled from the spec: stable sort by score descending, ties keeping
input order. -/
def stableSortDesc : List SearchResult → List SearchResult
  | [] => []
  | x :: xs => insertDescStable x (stableSortDesc xs)

/-- A sublist of the sorted output (in particular a truncation) is still
sorted. -/
theorem truncateResults_sublist (lim : Int) (l rs : List SearchResult)
    (h : truncateResults lim l = some rs) : rs.Sublist l := by
  unfold truncateResults at h
  split at h
  · split at h
    · exact absurd h (by simp)
    · rw [← Option.some.inj h]
      exact List.take_sublist _ _
  · rw [← Option.some.inj h]

/-! ### Example inputs for the search claims -/

def tabA : Tab := ⟨"a", "xq", "u", ""⟩

def tabB : Tab := ⟨"b", "t", "qq", ""⟩

def tabC : Tab := ⟨"c", "s", "qz", ""⟩

def tabD : Tab := ⟨"d", "q", "u2", ""⟩

/-- A four-tab cache: under query "q" the scores are 1.0, 0.5, 0.5, 4.0
(in tenths: 10, 5, 5, 40), so `tabB` and `tabC` tie. -/
def exCache : List Tab := [tabA, tabB, tabC, tabD]

def exQuery : SearchTabsArgs := ⟨"q", "", "", "", 10, ""⟩

/-- C3 counterexample: on the concrete cache above the code's exchange sort
emits the tied results `tabC` before `tabB`, the reverse of their cache
order, so the output differs from the stable descending sort the claim
describes. -/
theorem C3_stability_cex :
    collectResults exCache exQuery
        = [⟨tabA, 10⟩, ⟨tabB, 5⟩, ⟨tabC, 5⟩, ⟨tabD, 40⟩] ∧
    sortResults (collectResults exCache exQuery)
        = [⟨tabD, 40⟩, ⟨tabA, 10⟩, ⟨tabC, 5⟩, ⟨tabB, 5⟩] ∧
    stableSortDesc (collectResults exCache exQuery)
        = [⟨tabD, 40⟩, ⟨tabA, 10⟩, ⟨tabB, 5⟩, ⟨tabC, 5⟩] ∧
    sortResults (collectResults exCache exQuery)
        ≠ stableSortDesc (collectResults exCache exQuery) := by
  refine ⟨by decide, by decide, by decide, by decide⟩

/-- C3 (amended): for every cache snapshot and query the result list
produced by search_tabs is sorted by score in descending order before
truncation to limit, and is a permutation of the included results; equal
scores, however, need not keep their cache order (the double-loop swap
sort is not stable - see the counterexample). -/
theorem C3_sorted_descending (cache : List Tab) (args : SearchTabsArgs) :
    (sortResults (collectResults cache args)).Sorted
        (fun a b => b.score ≤ a.score) ∧
    List.Perm (sortResults (collectResults cache args))
        (collectResults cache args) ∧
    ∀ rs, searchTabs cache args = .results rs →
      rs.Sorted (fun a b => b.score ≤ a.score) := by
  refine ⟨exchangeSortAux_sorted _ _ (le_refl _),
    exchangeSortAux_perm _ _ (le_refl _), ?_⟩
  intro rs h
  unfold searchTabs at h
  by_cases hc : cache.length = 0
  · simp [hc] at h
  · rw [if_neg hc] at h
    cases htr : truncateResults (if args.limit = 0 then 10 else args.limit)
        (sortResults (collectResults cache args)) with
    | none => rw [htr] at h; exact absurd h (by simp)
    | some rs' =>
      rw [htr] at h
      have hrs : rs' = rs := by
        have := h
        simp only [SearchOutcome.results.injEq] at this
        exact this
      subst hrs
      exact List.Pairwise.sublist (truncateResults_sublist _ _ _ htr)
        (exchangeSortAux_sorted _ _ (le_refl _))

/-- Witness for C3 (amended) at the concrete example cache. -/
theorem C3_sorted_descending_witness :
    ([⟨tabD, 40⟩, ⟨tabA, 10⟩, ⟨tabC, 5⟩, ⟨tabB, 5⟩] :
        List SearchResult).Sorted (fun a b => b.score ≤ a.score) :=
  (C3_sorted_descending exCache exQuery).2.2 _ (by decide)

/-- C7: the code defaults the limit only when it is exactly 0; a negative
limit reaches `results[:limit]` and panics, instead of behaving like the
default limit 10 as the claim requires.  The failing input is a one-tab
cache with `limit = -1` and no filters. -/
theorem C7_negative_limit_fault :
    searchTabs [⟨"1", "a", "u", ""⟩] ⟨"", "", "", "", -1, ""⟩ = .sliceFault ∧
    searchTabs [⟨"1", "a", "u", ""⟩] ⟨"", "", "", "", 10, ""⟩
        = .results [⟨⟨"1", "a", "u", ""⟩, 1⟩] ∧
    searchTabs [⟨"1", "a", "u", ""⟩] ⟨"", "", "", "", 0, ""⟩
        = .results [⟨⟨"1", "a", "u", ""⟩, 1⟩] := by
  refine ⟨by decide, by decide, by decide⟩

/-! ## Tab closing: filters, driver operations, coordinators -/

/-- `matchesPattern` (server lines 900-909): the sentinel "*" matches
everything, any other pattern is case-insensitive containment. -/
def matchesPattern (text pat : String) : Bool :=
  if pat == "*" then true
  else containsCI text pat

/-- The selection step of `closeTabsBulk` (lines 831-860): a non-empty
explicit id list is taken verbatim (never checked against the snapshot);
otherwise a tab is selected when every provided filter matches - an absent
filter leaves the `shouldClose` flag true. -/
def resolveTabsToClose (tabIds : List String) (filterUrl filterTitle : String)
    (currentTabs : List Tab) : List String :=
  if tabIds.length > 0 then tabIds
  else
    currentTabs.filterMap (fun tab =>
      let c1 := if filterUrl ≠ "" then matchesPattern tab.url filterUrl else true
      let c2 := if filterTitle ≠ "" then matchesPattern tab.title filterTitle else true
      if c1 && c2 then some tab.id else none)

/-- Result of the HTTP POST to /json/close: a transport failure or a
status code. -/
inductive PostOutcome where
  | transportErr (e : String)
  | status (code : Nat)
  deriving Repr, DecidableEq

/-- The failure modes of driver `CloseTab` (android.go 116-156), one
constructor per `return fmt.Errorf` site. -/
inductive CloseTabError where
  | fetchFailed (e : String)
  | notFound (tabID : String)
  | transport (e : String)
  | badStatus (code : Nat)
  deriving Repr, DecidableEq

/-- The Go error message of each `CloseTab` failure mode. -/
def renderCloseErr : CloseTabError → String
  | .fetchFailed e => "failed to verify tab existence: " ++ e
  | .notFound tabID => "tab with ID '" ++ (tabID ++ "' does not exist")
  | .transport e => "failed to close tab: " ++ e
  | .badStatus code => "unexpected status code when closing tab: " ++ toString code

/-- Driver `CloseTab` (android.go 116-156): the id is first checked
against a fresh `LoadTabs` fetch (`tabExists`, android.go 158-172); an
absent id fails without any close POST; a present id gets exactly one
close POST whose transport/status outcome decides the result.  Returns
the error, if any, plus the list of close POSTs issued. -/
def CloseTab (live : Except String (List Tab)) (post : String → PostOutcome)
    (tabID : String) : Option CloseTabError × List String :=
  match live with
  | .error e => (some (.fetchFailed e), [])
  | .ok tabs =>
    if tabs.any (fun t => t.id == tabID) then
      match post tabID with
      | .transportErr e => (some (.transport e), [tabID])
      | .status code =>
        if code ≠ 200 then (some (.badStatus code), [tabID]) else (none, [tabID])
    else (some (.notFound tabID), [])

/-- `TabCloseResult` (android.go 174-180).  `FailedErrors` is a Go map
from tab id to error message; modelled as an association list with unique
keys. -/
structure TabCloseResult where
  successCount : Nat
  failedCount : Nat
  failedTabIDs : List String
  failedErrors : List (String × String)
  deriving Repr, DecidableEq

/-- Go map insert: overwrite an existing binding or append a new one. -/
def mapInsert : List (String × String) → String → String → List (String × String)
  | [], k, v => [(k, v)]
  | (k', v') :: rest, k, v =>
    if k' = k then (k, v) :: rest else (k', v') :: mapInsert rest k v

/-- Go map lookup. -/
def mapLookup : List (String × String) → String → Option String
  | [], _ => none
  | (k', v') :: rest, k => if k' = k then some v' else mapLookup rest k

/-- The `for _, tabID := range tabIDs` loop of `CloseTabs` (android.go
197-208); `f` supplies the outcome of each inner `d.CloseTab` call (the
rendered error message, or `none` on success).  A failure is counted,
recorded and mapped, and the loop always continues with the next id. -/
def closeLoop (f : String → Option String) :
    List String → TabCloseResult → TabCloseResult
  | [], acc => acc
  | tabID :: rest, acc =>
    match f tabID with
    | some e => closeLoop f rest
        { acc with
          failedCount := acc.failedCount + 1,
          failedTabIDs := acc.failedTabIDs ++ [tabID],
          failedErrors := mapInsert acc.failedErrors tabID e }
    | none => closeLoop f rest { acc with successCount := acc.successCount + 1 }

/-- The message of the error built when at least one close failed
(android.go 210-213); `%v` on a Go string slice prints the ids
space-separated in brackets. -/
def failureSummaryMsg (succ total : Nat) (failedIDs : List String) : String :=
  "partially successful: closed " ++ (toString succ ++ ("/" ++ (toString total
    ++ (" tabs successfully. Failed tabs: [" ++ (String.intercalate " " failedIDs ++ "]")))))

/-- Driver `CloseTabs` (android.go 182-220): close every requested id in
order, never stopping at a failure, and return the aggregate plus an
error exactly when at least one close failed. -/
def CloseTabs (f : String → Option String) (tabIDs : List String) :
    TabCloseResult × Option String :=
  let r := closeLoop f tabIDs ⟨0, 0, [], []⟩
  if r.failedCount > 0 then
    (r, some (failureSummaryMsg r.successCount tabIDs.length r.failedTabIDs))
  else (r, none)

/-- Remote interactions of a close coordinator run: the ADB driver start,
a `LoadTabs` fetch, and each mutating close POST. -/
inductive Event where
  | driverStart
  | loadCall
  | closePost (tabID : String)
  deriving Repr, DecidableEq

/-- `CloseTabArgs` (tabId, platform, confirm). -/
structure CloseTabArgs where
  tabId : String
  platform : String
  confirm : Bool
  deriving Repr, DecidableEq

/-- `CloseTabsBulkArgs` (tabIds, platform, filterUrl, filterTitle,
confirm, dryRun). -/
structure CloseTabsBulkArgs where
  tabIds : List String
  platform : String
  filterUrl : String
  filterTitle : String
  confirm : Bool
  dryRun : Bool
  deriving Repr, DecidableEq

/-- Environment of a close run: whether the ADB driver start fails, the
live tab list a fresh fetch returns (or its error), and the outcome of a
close POST per tab id.  The environment is held fixed for the run, so
every fresh fetch during one bulk operation observes the same list. -/
structure CloseEnv where
  startErr : Option String
  live : Except String (List Tab)
  post : String → PostOutcome

/-- The distinct returns of the single-tab `closeTab` tool (server lines
737-789), one constructor per return site, in source order: missing
required tabId, the confirmation-required response (returned before the
platform gate), the unsupported-platform error, a driver start failure,
a `CloseTab` failure, and success. -/
inductive SingleOutcome where
  | missingTabId
  | confirmPrompt (tabId platform : String)
  | unsupported
  | startFailed (e : String)
  | closeFailed (e : CloseTabError)
  | closed (tabId : String)
  deriving Repr, DecidableEq

/-- The single-tab `closeTab` tool (server lines 737-789): platform
defaults to android, `tabId` is validated, the confirmation gate fires
before the platform gate, then the driver is started and `CloseTab`
runs. -/
def closeTab (env : CloseEnv) (args : CloseTabArgs) : SingleOutcome × List Event :=
  let platform := if args.platform == "" then "android" else args.platform
  if args.tabId == "" then (.missingTabId, [])
  else if !args.confirm then (.confirmPrompt args.tabId platform, [])
  else if platform ≠ "android" then (.unsupported, [])
  else
    match env.startErr with
    | some e => (.startFailed e, [.driverStart])
    | none =>
      match CloseTab env.live env.post args.tabId with
      | (some err, posts) =>
        (.closeFailed err, [.driverStart, .loadCall] ++ posts.map .closePost)
      | (none, posts) =>
        (.closed args.tabId, [.driverStart, .loadCall] ++ posts.map .closePost)

/-- The dry-run preview detail loop (server lines 871-879): for each
selected id, the first matching tab of the snapshot contributes its
title, id and url; ids absent from the snapshot contribute nothing. -/
def dryRunDetails (tabsToClose : List String) (currentTabs : List Tab) : List Tab :=
  tabsToClose.filterMap (fun tid => currentTabs.find? (fun t => t.id == tid))

/-- The distinct returns of the bulk `closeTabsBulk` tool (server lines
792-898), one constructor per return site, in source order. -/
inductive BulkOutcome where
  | unsupported
  | startFailed (e : String)
  | loadFailed (e : String)
  | noMatch
  | dryRunPreview (count : Nat) (details : List Tab)
  | confirmPrompt (count : Nat)
  | closeFailed (r : TabCloseResult) (e : String)
  | closedAll (count : Nat)
  deriving Repr, DecidableEq

/-- The error channel of the bulk tool's return value (`nil, fmt.Errorf`
sites of `closeTabsBulk`); non-error responses carry `none`. -/
def bulkError : BulkOutcome → Option String
  | .startFailed e => some ("failed to start Android driver: " ++ e)
  | .loadFailed e => some ("failed to load current tabs: " ++ e)
  | .closeFailed _ e => some ("failed to close tabs: " ++ e)
  | _ => none

/-- The per-id outcome the bulk loop observes: the rendered error of a
`CloseTab` call against the fixed environment, or success. -/
def bulkF (env : CloseEnv) : String → Option String :=
  fun id => ((CloseTab env.live env.post id).1).map renderCloseErr

/-- Events of the bulk close phase: each per-id `CloseTab` call performs
its own fresh fetch and then its close POSTs. -/
def closePhaseTrace (env : CloseEnv) (ids : List String) : List Event :=
  (ids.map (fun id =>
    Event.loadCall :: ((CloseTab env.live env.post id).2.map Event.closePost))).flatten

/-- The bulk `closeTabsBulk` tool (server lines 792-898): platform
defaults to android and is gated first; the driver is started, the live
snapshot fetched, the selection resolved; an empty selection is the
no-op response; dry run returns the preview before any mutation; without
confirmation the warning names the selection size; otherwise `CloseTabs`
runs over the selection. -/
def closeTabsBulk (env : CloseEnv) (args : CloseTabsBulkArgs) :
    BulkOutcome × List Event :=
  let platform := if args.platform == "" then "android" else args.platform
  if platform ≠ "android" then (.unsupported, [])
  else
    match env.startErr with
    | some e => (.startFailed e, [.driverStart])
    | none =>
      match env.live with
      | .error e => (.loadFailed e, [.driverStart, .loadCall])
      | .ok currentTabs =>
        let tabsToClose :=
          resolveTabsToClose args.tabIds args.filterUrl args.filterTitle currentTabs
        if tabsToClose.length = 0 then (.noMatch, [.driverStart, .loadCall])
        else if args.dryRun then
          (.dryRunPreview tabsToClose.length (dryRunDetails tabsToClose currentTabs),
            [.driverStart, .loadCall])
        else if !args.confirm then
          (.confirmPrompt tabsToClose.length, [.driverStart, .loadCall])
        else
          match CloseTabs (bulkF env) tabsToClose with
          | (r, some e) =>
            (.closeFailed r e, [.driverStart, .loadCall] ++ closePhaseTrace env tabsToClose)
          | (_, none) =>
            (.closedAll tabsToClose.length,
              [.driverStart, .loadCall] ++ closePhaseTrace env tabsToClose)

/-! ### Helper lemmas for the close theorems -/

theorem string_data_append (s t : String) : (s ++ t).data = s.data ++ t.data :=
  rfl

/-- Two strings with different prefixes of length `i` stay different under
any continuations. -/
theorem string_append_ne (a b x y : String) (i : Nat)
    (hia : i ≤ a.data.length) (hib : i ≤ b.data.length)
    (hne : a.data.take i ≠ b.data.take i) :
    a ++ x ≠ b ++ y := by
  intro h
  apply hne
  have hd : (a ++ x).data = (b ++ y).data := by rw [h]
  rw [string_data_append, string_data_append] at hd
  calc a.data.take i = (a.data ++ x.data).take i := by
        rw [List.take_append_of_le_length hia]
    _ = (b.data ++ y.data).take i := by rw [hd]
    _ = b.data.take i := by rw [List.take_append_of_le_length hib]

theorem mapLookup_mapInsert (m : List (String × String)) (k k' v : String) :
    mapLookup (mapInsert m k v) k' = if k' = k then some v else mapLookup m k' := by
  induction m with
  | nil =>
    simp only [mapInsert, mapLookup]
    by_cases h : k' = k
    · subst h
      simp
    · rw [if_neg (fun hh => h hh.symm), if_neg h]
  | cons hd tl ih =>
    obtain ⟨a, b⟩ := hd
    by_cases hak : a = k
    · simp only [mapInsert, if_pos hak, mapLookup]
      by_cases hk : k' = k
      · subst hk
        simp
      · rw [if_neg (fun hh => hk hh.symm), if_neg hk,
          if_neg (fun hh : a = k' => hk (hh.symm.trans hak))]
    · simp only [mapInsert, if_neg hak, mapLookup]
      by_cases hek : a = k'
      · rw [if_pos hek, if_neg (fun hh : k' = k => hak (hek.trans hh)), if_pos hek]
      · rw [if_neg hek, if_neg hek, ih]

theorem length_filter_none_add_some (f : String → Option String) (ids : List String) :
    (ids.filter (fun id => (f id).isNone)).length
      + (ids.filter (fun id => (f id).isSome)).length = ids.length := by
  induction ids with
  | nil => rfl
  | cons id rest ih =>
    cases hf : f id <;> simp [List.filter_cons, hf] <;> omega

theorem closeLoop_counts (f : String → Option String) :
    ∀ (ids : List String) (acc : TabCloseResult),
      (closeLoop f ids acc).successCount
          = acc.successCount + (ids.filter (fun id => (f id).isNone)).length ∧
      (closeLoop f ids acc).failedCount
          = acc.failedCount + (ids.filter (fun id => (f id).isSome)).length ∧
      (closeLoop f ids acc).failedTabIDs
          = acc.failedTabIDs ++ ids.filter (fun id => (f id).isSome) := by
  intro ids
  induction ids with
  | nil =>
    intro acc
    simp [closeLoop]
  | cons id rest ih =>
    intro acc
    cases hf : f id with
    | some e =>
      obtain ⟨h1, h2, h3⟩ := ih { acc with
        failedCount := acc.failedCount + 1,
        failedTabIDs := acc.failedTabIDs ++ [id],
        failedErrors := mapInsert acc.failedErrors id e }
      refine ⟨?_, ?_, ?_⟩
      · simp only [closeLoop, hf, h1]
        simp [List.filter_cons, hf]
      · simp only [closeLoop, hf, h2]
        simp [List.filter_cons, hf]
        omega
      · simp only [closeLoop, hf, h3]
        simp [List.filter_cons, hf]
    | none =>
      obtain ⟨h1, h2, h3⟩ := ih { acc with successCount := acc.successCount + 1 }
      refine ⟨?_, ?_, ?_⟩
      · simp only [closeLoop, hf, h1]
        simp [List.filter_cons, hf]
        omega
      · simp only [closeLoop, hf, h2]
        simp [List.filter_cons, hf]
      · simp only [closeLoop, hf, h3]
        simp [List.filter_cons, hf]

theorem closeLoop_lookup (f : String → Option String) :
    ∀ (ids : List String) (acc : TabCloseResult) (k : String),
      ((k ∈ ids ∧ (f k).isSome) ∨ mapLookup acc.failedErrors k = f k) →
      mapLookup (closeLoop f ids acc).failedErrors k = f k := by
  intro ids
  induction ids with
  | nil =>
    intro acc k h
    rcases h with ⟨hmem, _⟩ | hacc
    · exact absurd hmem (List.not_mem_nil k)
    · exact hacc
  | cons id rest ih =>
    intro acc k h
    cases hf : f id with
    | some e =>
      simp only [closeLoop, hf]
      apply ih
      by_cases hk : k ∈ rest
      · by_cases hks : (f k).isSome
        · exact Or.inl ⟨hk, hks⟩
        · rcases h with ⟨_, hsome⟩ | hacc
          · exact absurd hsome hks
          · refine Or.inr ?_
            have hkid : k ≠ id := by
              intro hh
              rw [hh, hf] at hks
              simp at hks
            simp only [mapLookup_mapInsert, if_neg hkid]
            exact hacc
      · rcases h with ⟨hmem, _⟩ | hacc
        · have hkid : k = id := by
            rcases List.mem_cons.1 hmem with hh | hh
            · exact hh
            · exact absurd hh hk
          refine Or.inr ?_
          subst hkid
          simp [mapLookup_mapInsert, hf]
        · refine Or.inr ?_
          by_cases hkid : k = id
          · subst hkid
            simp [mapLookup_mapInsert, hf]
          · simp only [mapLookup_mapInsert, if_neg hkid]
            exact hacc
    | none =>
      simp only [closeLoop, hf]
      apply ih
      rcases h with ⟨hmem, hsome⟩ | hacc
      · rcases List.mem_cons.1 hmem with hh | hh
        · rw [hh, hf] at hsome
          simp at hsome
        · exact Or.inl ⟨hh, hsome⟩
      · exact Or.inr hacc

theorem CloseTabs_fst (f : String → Option String) (ids : List String) :
    (CloseTabs f ids).1 = closeLoop f ids ⟨0, 0, [], []⟩ := by
  simp only [CloseTabs]
  split <;> rfl

theorem CloseTabs_none_iff (f : String → Option String) (ids : List String) :
    (CloseTabs f ids).2 = none ↔ (CloseTabs f ids).1.failedCount = 0 := by
  simp only [CloseTabs]
  split <;> rename_i h <;> simp <;> omega

theorem CloseTabs_pos_snd (f : String → Option String) (ids : List String)
    (h : 0 < (CloseTabs f ids).1.failedCount) :
    (CloseTabs f ids).2 = some (failureSummaryMsg (CloseTabs f ids).1.successCount
      ids.length (CloseTabs f ids).1.failedTabIDs) := by
  have h' : 0 < (closeLoop f ids ⟨0, 0, [], []⟩).failedCount := by
    rw [← CloseTabs_fst]
    exact h
  have hc : CloseTabs f ids
      = (closeLoop f ids ⟨0, 0, [], []⟩,
        some (failureSummaryMsg (closeLoop f ids ⟨0, 0, [], []⟩).successCount
          ids.length (closeLoop f ids ⟨0, 0, [], []⟩).failedTabIDs)) := by
    simp only [CloseTabs]
    rw [if_pos h']
  rw [hc]

set_option maxRecDepth 2000 in
/-- A confirmed, non-dry bulk run over a selection with at least one
failing close ends in the `closeFailed` return carrying the aggregate and
the partial-success message. -/
theorem bulkConfirmedFailedRun (env : CloseEnv) (tabs : List Tab)
    (args : CloseTabsBulkArgs)
    (hstart : env.startErr = none) (hlive : env.live = .ok tabs)
    (hplat : args.platform = "android") (hdry : args.dryRun = false)
    (hcon : args.confirm = true)
    (hfail : 0 < (CloseTabs (bulkF env)
      (resolveTabsToClose args.tabIds args.filterUrl args.filterTitle tabs)).1.failedCount) :
    (closeTabsBulk env args).1
      = .closeFailed
          (CloseTabs (bulkF env)
            (resolveTabsToClose args.tabIds args.filterUrl args.filterTitle tabs)).1
          (failureSummaryMsg
            (CloseTabs (bulkF env)
              (resolveTabsToClose args.tabIds args.filterUrl args.filterTitle tabs)).1.successCount
            (resolveTabsToClose args.tabIds args.filterUrl args.filterTitle tabs).length
            (CloseTabs (bulkF env)
              (resolveTabsToClose args.tabIds args.filterUrl args.filterTitle tabs)).1.failedTabIDs) := by
  have hne : (resolveTabsToClose args.tabIds args.filterUrl args.filterTitle tabs).length ≠ 0 := by
    intro h0
    rw [List.length_eq_zero.1 h0] at hfail
    rw [CloseTabs_fst] at hfail
    simp [closeLoop] at hfail
  have hsnd := CloseTabs_pos_snd (bulkF env)
    (resolveTabsToClose args.tabIds args.filterUrl args.filterTitle tabs) hfail
  have hx : CloseTabs (bulkF env)
        (resolveTabsToClose args.tabIds args.filterUrl args.filterTitle tabs)
      = ((CloseTabs (bulkF env)
            (resolveTabsToClose args.tabIds args.filterUrl args.filterTitle tabs)).1,
        some (failureSummaryMsg
          (CloseTabs (bulkF env)
            (resolveTabsToClose args.tabIds args.filterUrl args.filterTitle tabs)).1.successCount
          (resolveTabsToClose args.tabIds args.filterUrl args.filterTitle tabs).length
          (CloseTabs (bulkF env)
            (resolveTabsToClose args.tabIds args.filterUrl args.filterTitle tabs)).1.failedTabIDs)) := by
    rw [← hsnd]
  simp only [closeTabsBulk, hplat, hstart, hlive, hdry, hcon, Bool.not_true,
    Bool.false_eq_true, if_false]
  rw [if_neg (by decide : ¬ ((if ("android" : String) == "" then "android"
    else "android") ≠ "android"))]
  rw [if_neg hne]
  rw [hx]

/-- C1: in a confirmed (dryRun=false, confirm=true) bulk close over
requested ids, every id is attempted in order and processing continues
past failures (the failed ids are exactly the requested ids whose close
fails, in request order), succeeded + failed = requested, the failure map
sends each failing id to its error message; an error is returned exactly
when something failed, and with at least one failure the bulk tool reports
the dedicated partial-success message (naming the succeeded count), whose
text differs from every driver-start or snapshot-load failure report. -/
theorem C1_bulk_close_aggregation (f : String → Option String) (ids : List String) :
    (CloseTabs f ids).1.successCount + (CloseTabs f ids).1.failedCount = ids.length ∧
    (CloseTabs f ids).1.failedTabIDs = ids.filter (fun id => (f id).isSome) ∧
    (CloseTabs f ids).1.failedTabIDs.length = (CloseTabs f ids).1.failedCount ∧
    (∀ id ∈ (CloseTabs f ids).1.failedTabIDs,
      mapLookup (CloseTabs f ids).1.failedErrors id = f id) ∧
    ((CloseTabs f ids).2 = none ↔ (CloseTabs f ids).1.failedCount = 0) ∧
    (0 < (CloseTabs f ids).1.failedCount →
      (CloseTabs f ids).2 = some (failureSummaryMsg (CloseTabs f ids).1.successCount
        ids.length (CloseTabs f ids).1.failedTabIDs)) ∧
    (∀ x y : String,
      ("failed to close tabs: " ++ x ≠ "failed to start Android driver: " ++ y) ∧
      ("failed to close tabs: " ++ x ≠ "failed to load current tabs: " ++ y)) ∧
    (∀ (env : CloseEnv) (tabs : List Tab) (args : CloseTabsBulkArgs),
      env.startErr = none → env.live = .ok tabs →
      args.platform = "android" → args.dryRun = false → args.confirm = true →
      resolveTabsToClose args.tabIds args.filterUrl args.filterTitle tabs = ids →
      0 < (CloseTabs (bulkF env) ids).1.failedCount →
      bulkError (closeTabsBulk env args).1
        = some ("failed to close tabs: "
            ++ failureSummaryMsg (CloseTabs (bulkF env) ids).1.successCount
              ids.length (CloseTabs (bulkF env) ids).1.failedTabIDs)) := by
  obtain ⟨h1, h2, h3⟩ := closeLoop_counts f ids ⟨0, 0, [], []⟩
  rw [← CloseTabs_fst] at h1 h2 h3
  refine ⟨?_, ?_, ?_, ?_, CloseTabs_none_iff f ids, CloseTabs_pos_snd f ids, ?_, ?_⟩
  · rw [h1, h2]
    simpa using length_filter_none_add_some f ids
  · simpa using h3
  · rw [h2, h3]
    simp
  · intro id hid
    rw [CloseTabs_fst]
    apply closeLoop_lookup
    rw [h3] at hid
    simp only [List.nil_append] at hid
    have hm := List.mem_filter.1 hid
    exact Or.inl ⟨hm.1, by simpa using hm.2⟩
  · intro x y
    constructor
    · exact string_append_ne _ _ _ _ 11 (by decide) (by decide) (by decide)
    · exact string_append_ne _ _ _ _ 11 (by decide) (by decide) (by decide)
  · intro env tabs args hstart hlive hplat hdry hcon hres hfail
    rw [← hres] at hfail
    have hb := bulkConfirmedFailedRun env tabs args hstart hlive hplat hdry hcon hfail
    rw [hb, hres]
    rfl

/-- The per-id outcome used in the C1 witness: "a" succeeds, "b" fails. -/
def exF : String → Option String :=
  fun id => if id == "b" then some "boom" else none

/-- Witness for C1 at the concrete request ["a", "b"] where "a" succeeds
and "b" fails: one success, one failure, and the map names "b". -/
theorem C1_bulk_close_aggregation_witness :
    (CloseTabs exF ["a", "b"]).1.successCount + (CloseTabs exF ["a", "b"]).1.failedCount = 2 ∧
    mapLookup (CloseTabs exF ["a", "b"]).1.failedErrors "b" = some "boom" := by
  refine ⟨(C1_bulk_close_aggregation exF ["a", "b"]).1, ?_⟩
  have h := (C1_bulk_close_aggregation exF ["a", "b"]).2.2.2.1 "b" (by decide)
  rw [h]
  decide

theorem filterMap_all_some (g : Tab → Option String) (hg : ∀ t, g t = some t.id) :
    ∀ tabs : List Tab, tabs.filterMap g = tabs.map Tab.id := by
  intro tabs
  induction tabs with
  | nil => rfl
  | cons t ts ih => rw [List.filterMap_cons, hg t, ih, List.map_cons]

/-- C2 counterexample: with no explicit ids and every filter empty, the
selection loop leaves `shouldClose` true for every tab, so a one-tab
snapshot resolves to that tab - not to the empty selection the claim
requires. -/
theorem C2_empty_filters_cex :
    resolveTabsToClose [] "" "" [⟨"1", "t", "u", ""⟩] = ["1"] ∧
    resolveTabsToClose [] "" "" [⟨"1", "t", "u", ""⟩] ≠ [] :=
  ⟨rfl, by decide⟩

/-- C2 (amended): with no explicit ids, `filterUrl="*"` and no other
filter selects every tab of the live snapshot; and with every filter
empty/absent the resolved selection is likewise the entire snapshot
(each absent filter is skipped and `shouldClose` stays true), never the
empty selection. -/
theorem C2_filters_select_all (tabs : List Tab) :
    resolveTabsToClose [] "*" "" tabs = tabs.map Tab.id ∧
    resolveTabsToClose [] "" "" tabs = tabs.map Tab.id :=
  ⟨filterMap_all_some _ (fun _ => rfl) tabs,
    filterMap_all_some _ (fun _ => rfl) tabs⟩

/-- After the platform gate, a started driver and a fetched snapshot, the
bulk tool is the selection/gating/close pipeline. -/
theorem closeTabsBulk_run (env : CloseEnv) (tabs : List Tab)
    (args : CloseTabsBulkArgs)
    (hstart : env.startErr = none) (hlive : env.live = .ok tabs)
    (hplat : args.platform = "android" ∨ args.platform = "") :
    closeTabsBulk env args =
      (if (resolveTabsToClose args.tabIds args.filterUrl args.filterTitle tabs).length = 0 then
        (.noMatch, [.driverStart, .loadCall])
      else if args.dryRun then
        (.dryRunPreview
          (resolveTabsToClose args.tabIds args.filterUrl args.filterTitle tabs).length
          (dryRunDetails (resolveTabsToClose args.tabIds args.filterUrl args.filterTitle tabs) tabs),
          [.driverStart, .loadCall])
      else if !args.confirm then
        (.confirmPrompt (resolveTabsToClose args.tabIds args.filterUrl args.filterTitle tabs).length,
          [.driverStart, .loadCall])
      else
        match CloseTabs (bulkF env)
            (resolveTabsToClose args.tabIds args.filterUrl args.filterTitle tabs) with
        | (r, some e) =>
          (.closeFailed r e, [.driverStart, .loadCall]
            ++ closePhaseTrace env (resolveTabsToClose args.tabIds args.filterUrl args.filterTitle tabs))
        | (_, none) =>
          (.closedAll (resolveTabsToClose args.tabIds args.filterUrl args.filterTitle tabs).length,
            [.driverStart, .loadCall]
              ++ closePhaseTrace env (resolveTabsToClose args.tabIds args.filterUrl args.filterTitle tabs))) := by
  rcases hplat with hplat | hplat
  · simp only [closeTabsBulk, hplat, hstart, hlive]
    rw [if_neg (by decide : ¬ ((if ("android" : String) == "" then "android"
      else "android") ≠ "android"))]
  · simp only [closeTabsBulk, hplat, hstart, hlive]
    rw [if_neg (by decide : ¬ ((if ("" : String) == "" then "android"
      else "") ≠ "android"))]

/-- C6: a dry-run bulk request (on the supported platform, with the driver
started and the snapshot fetched) whose resolved selection is non-empty
returns the preview - the selection size and the per-tab details - and its
event trace contains no mutating close POST, whatever the value of
`confirm`. -/
theorem C6_dry_run_no_mutation (env : CloseEnv) (tabs : List Tab)
    (args : CloseTabsBulkArgs)
    (hstart : env.startErr = none) (hlive : env.live = .ok tabs)
    (hplat : args.platform = "android" ∨ args.platform = "")
    (hdry : args.dryRun = true)
    (hne : resolveTabsToClose args.tabIds args.filterUrl args.filterTitle tabs ≠ []) :
    closeTabsBulk env args
      = (.dryRunPreview
          (resolveTabsToClose args.tabIds args.filterUrl args.filterTitle tabs).length
          (dryRunDetails (resolveTabsToClose args.tabIds args.filterUrl args.filterTitle tabs) tabs),
        [.driverStart, .loadCall]) ∧
    ∀ tid, Event.closePost tid ∉ (closeTabsBulk env args).2 := by
  have hlen : (resolveTabsToClose args.tabIds args.filterUrl args.filterTitle tabs).length ≠ 0 :=
    fun h0 => hne (List.length_eq_zero.1 h0)
  have heq : closeTabsBulk env args
      = (.dryRunPreview
          (resolveTabsToClose args.tabIds args.filterUrl args.filterTitle tabs).length
          (dryRunDetails (resolveTabsToClose args.tabIds args.filterUrl args.filterTitle tabs) tabs),
        [.driverStart, .loadCall]) := by
    rw [closeTabsBulk_run env tabs args hstart hlive hplat, if_neg hlen, hdry]
    simp
  refine ⟨heq, ?_⟩
  intro tid
  rw [heq]
  simp

/-- Witness for C6: a concrete dry run over a one-tab snapshot returns
the preview and issues no close POST. -/
theorem C6_dry_run_no_mutation_witness :
    closeTabsBulk ⟨none, .ok [⟨"1", "t", "u", ""⟩], fun _ => .status 200⟩
        ⟨[], "android", "*", "", false, true⟩
      = (.dryRunPreview 1 [⟨"1", "t", "u", ""⟩], [.driverStart, .loadCall]) := by
  have h := (C6_dry_run_no_mutation
    ⟨none, .ok [⟨"1", "t", "u", ""⟩], fun _ => .status 200⟩
    [⟨"1", "t", "u", ""⟩] ⟨[], "android", "*", "", false, true⟩
    rfl rfl (Or.inl rfl) rfl (by decide)).1
  rw [h]
  rfl

/-- C8: a confirmed single-tab close first checks the id against a fresh
fetch of the live list; an absent id fails with the not-found error and no
close POST is issued; a present id gets the close POST; and the not-found
message differs from every transport, bad-status and fetch-failure
message. -/
theorem C8_close_tab_existence_gate (tabs : List Tab)
    (post : String → PostOutcome) (tabID : String) :
    ((∀ t ∈ tabs, t.id ≠ tabID) →
      CloseTab (.ok tabs) post tabID = (some (.notFound tabID), [])) ∧
    (tabID ∈ tabs.map Tab.id → (CloseTab (.ok tabs) post tabID).2 = [tabID]) ∧
    (∀ e, renderCloseErr (.notFound tabID) ≠ renderCloseErr (.transport e)) ∧
    (∀ c, renderCloseErr (.notFound tabID) ≠ renderCloseErr (.badStatus c)) ∧
    (∀ e, renderCloseErr (.notFound tabID) ≠ renderCloseErr (.fetchFailed e)) ∧
    (∀ env : CloseEnv, env.startErr = none → env.live = .ok tabs →
      (∀ t ∈ tabs, t.id ≠ tabID) → tabID ≠ "" →
      closeTab env ⟨tabID, "android", true⟩
        = (.closeFailed (.notFound tabID), [.driverStart, .loadCall])) := by
  have habs : (∀ t ∈ tabs, t.id ≠ tabID) →
      tabs.any (fun t => t.id == tabID) = false := by
    intro h
    rw [List.any_eq_false]
    intro t ht
    simpa using h t ht
  refine ⟨?_, ?_, ?_, ?_, ?_, ?_⟩
  · intro h
    simp only [CloseTab, habs h, Bool.false_eq_true, if_false]
  · intro h
    obtain ⟨t, ht, hid⟩ := List.mem_map.1 h
    have hany : tabs.any (fun t => t.id == tabID) = true := by
      rw [List.any_eq_true]
      exact ⟨t, ht, by simpa using hid⟩
    simp only [CloseTab, hany, if_true]
    cases post tabID with
    | transportErr e => rfl
    | status code =>
      by_cases hc : code ≠ 200
      · simp [hc]
      · simp [hc]
  · intro e
    exact string_append_ne "tab with ID '" "failed to close tab: " _ _ 1
      (by decide) (by decide) (by decide)
  · intro c
    exact string_append_ne "tab with ID '" "unexpected status code when closing tab: " _ _ 1
      (by decide) (by decide) (by decide)
  · intro e
    exact string_append_ne "tab with ID '" "failed to verify tab existence: " _ _ 1
      (by decide) (by decide) (by decide)
  · intro env hstart hlive h hid
    have hbeq : (tabID == "") = false := by
      simpa using hid
    simp only [closeTab, hbeq, Bool.false_eq_true, if_false, Bool.not_true, hstart, hlive]
    rw [if_neg (by decide : ¬ ((if ("android" : String) == "" then "android"
      else "android") ≠ "android"))]
    simp only [CloseTab, habs h, Bool.false_eq_true, if_false]
    rfl

/-- Witness for C8: against a one-tab snapshot, closing the absent id "g"
fails not-found with no POST, and closing the present id "1" issues the
POST. -/
theorem C8_close_tab_existence_gate_witness :
    CloseTab (.ok [⟨"1", "t", "u", ""⟩]) (fun _ => .status 200) "g"
        = (some (.notFound "g"), []) ∧
    (CloseTab (.ok [⟨"1", "t", "u", ""⟩]) (fun _ => .status 200) "1").2 = ["1"] := by
  constructor
  · exact (C8_close_tab_existence_gate [⟨"1", "t", "u", ""⟩]
      (fun _ => .status 200) "g").1 (by decide)
  · exact (C8_close_tab_existence_gate [⟨"1", "t", "u", ""⟩]
      (fun _ => .status 200) "1").2.1 (by decide)

/-- A concrete environment for counterexamples: driver starts, the live
list is empty, every POST returns 200. -/
def exEnv : CloseEnv := ⟨none, .ok [], fun _ => .status 200⟩

/-- C9 counterexample: a `close_tab` request for the unsupported "ios"
platform with confirm=false does not fail with the
unsupported-for-this-platform error - the confirmation gate fires first
and returns the confirmation prompt. -/
theorem C9_close_tab_confirm_cex :
    closeTab exEnv ⟨"x", "ios", false⟩ = (.confirmPrompt "x" "ios", []) ∧
    SingleOutcome.confirmPrompt "x" "ios" ≠ .unsupported :=
  ⟨rfl, by decide⟩

/-- C9 (amended): `close_tabs_bulk` fails fast with the unsupported error
and performs no remote call for every non-android platform and all flag
values; `close_tab` does so only when confirm=true (and the tabId is
non-empty), while with confirm=false it returns the non-mutating
confirmation prompt before the platform gate - still performing no remote
call. -/
theorem C9_platform_gating :
    (∀ (env : CloseEnv) (args : CloseTabsBulkArgs),
      (if args.platform == "" then "android" else args.platform) ≠ "android" →
      closeTabsBulk env args = (.unsupported, [])) ∧
    (∀ (env : CloseEnv) (a : CloseTabArgs),
      a.tabId ≠ "" → a.confirm = true →
      (if a.platform == "" then "android" else a.platform) ≠ "android" →
      closeTab env a = (.unsupported, [])) ∧
    (∀ (env : CloseEnv) (a : CloseTabArgs),
      a.tabId ≠ "" → a.confirm = false →
      closeTab env a = (.confirmPrompt a.tabId
        (if a.platform == "" then "android" else a.platform), [])) := by
  refine ⟨?_, ?_, ?_⟩
  · intro env args h
    simp only [closeTabsBulk, if_pos h]
  · intro env a hid hcon h
    have hbeq : (a.tabId == "") = false := by simpa using hid
    simp only [closeTab, hbeq, Bool.false_eq_true, if_false, hcon, Bool.not_true, if_pos h]
  · intro env a hid hcon
    have hbeq : (a.tabId == "") = false := by simpa using hid
    simp only [closeTab, hbeq, Bool.false_eq_true, if_false, hcon, Bool.not_false, if_true]

/-- Witness for C9 (amended): concrete "ios" requests. -/
theorem C9_platform_gating_witness :
    closeTabsBulk exEnv ⟨[], "ios", "", "", false, false⟩ = (.unsupported, []) ∧
    closeTab exEnv ⟨"x", "ios", true⟩ = (.unsupported, []) ∧
    closeTab exEnv ⟨"y", "ios", false⟩ = (.confirmPrompt "y" "ios", []) := by
  refine ⟨C9_platform_gating.1 exEnv ⟨[], "ios", "", "", false, false⟩ (by decide),
    C9_platform_gating.2.1 exEnv ⟨"x", "ios", true⟩ (by decide) rfl (by decide), ?_⟩
  have h := C9_platform_gating.2.2 exEnv ⟨"y", "ios", false⟩ (by decide) rfl
  rw [show (if ("ios" : String) == "" then "android" else "ios") = "ios" from rfl] at h
  exact h

/-- C10: a non-empty explicit `tabIds` list is the resolved selection
verbatim, with no validation against the snapshot: an id absent from the
device stays in the selection, is counted in the announced close count,
and - once the per-tab close call runs its own existence check - turns
into a not-found entry of the aggregated failure map instead of being
dropped from the request. -/
theorem C10_explicit_ids_unvalidated (env : CloseEnv) (tabs : List Tab)
    (args : CloseTabsBulkArgs) (ghost : String)
    (hstart : env.startErr = none) (hlive : env.live = .ok tabs)
    (hplat : args.platform = "android" ∨ args.platform = "")
    (hdry : args.dryRun = false) (hcon : args.confirm = false)
    (hids : args.tabIds ≠ []) (hg : ghost ∈ args.tabIds)
    (habsent : ∀ t ∈ tabs, t.id ≠ ghost) :
    resolveTabsToClose args.tabIds args.filterUrl args.filterTitle tabs = args.tabIds ∧
    closeTabsBulk env args
      = (.confirmPrompt args.tabIds.length, [.driverStart, .loadCall]) ∧
    bulkF env ghost = some (renderCloseErr (.notFound ghost)) ∧
    ghost ∈ (CloseTabs (bulkF env) args.tabIds).1.failedTabIDs ∧
    mapLookup (CloseTabs (bulkF env) args.tabIds).1.failedErrors ghost
      = some (renderCloseErr (.notFound ghost)) ∧
    0 < (CloseTabs (bulkF env) args.tabIds).1.failedCount := by
  have hres : resolveTabsToClose args.tabIds args.filterUrl args.filterTitle tabs
      = args.tabIds := by
    simp only [resolveTabsToClose, if_pos (List.length_pos.2 hids)]
  have hghost : bulkF env ghost = some (renderCloseErr (.notFound ghost)) := by
    simp only [bulkF, hlive]
    have habs : tabs.any (fun t => t.id == ghost) = false := by
      rw [List.any_eq_false]
      intro t ht
      simpa using habsent t ht
    simp only [CloseTab, habs, Bool.false_eq_true, if_false]
    rfl
  have hsome : (bulkF env ghost).isSome = true := by
    rw [hghost]
    rfl
  have hmem : ghost ∈ (CloseTabs (bulkF env) args.tabIds).1.failedTabIDs := by
    have h3 := (closeLoop_counts (bulkF env) args.tabIds ⟨0, 0, [], []⟩).2.2
    rw [← CloseTabs_fst] at h3
    rw [h3]
    simp only [List.nil_append]
    exact List.mem_filter.2 ⟨hg, by simpa using hsome⟩
  refine ⟨hres, ?_, hghost, hmem, ?_, ?_⟩
  · rw [closeTabsBulk_run env tabs args hstart hlive hplat, hres, hdry, hcon]
    rw [if_neg (fun h0 => hids (List.length_eq_zero.1 h0))]
    simp
  · rw [CloseTabs_fst]
    rw [closeLoop_lookup (bulkF env) args.tabIds ⟨0, 0, [], []⟩ ghost
      (Or.inl ⟨hg, hsome⟩)]
    exact hghost
  · have h3 := (closeLoop_counts (bulkF env) args.tabIds ⟨0, 0, [], []⟩).2.1
    rw [← CloseTabs_fst] at h3
    rw [h3]
    have : ghost ∈ args.tabIds.filter (fun id => ((bulkF env) id).isSome) :=
      List.mem_filter.2 ⟨hg, by simpa using hsome⟩
    have hlen := List.length_pos.2 (List.ne_nil_of_mem this)
    omega

/-- Witness for C10: the explicit request ["g"] against an empty live
snapshot - "g" is selected, announced, and ends as a not-found failure. -/
theorem C10_explicit_ids_unvalidated_witness :
    resolveTabsToClose ["g"] "" "" [] = ["g"] ∧
    closeTabsBulk exEnv ⟨["g"], "android", "", "", false, false⟩
      = (.confirmPrompt 1, [.driverStart, .loadCall]) ∧
    mapLookup (CloseTabs (bulkF exEnv) ["g"]).1.failedErrors "g"
      = some (renderCloseErr (.notFound "g")) := by
  have h := C10_explicit_ids_unvalidated exEnv [] ⟨["g"], "android", "", "", false, false⟩ "g"
    rfl rfl (Or.inl rfl) rfl rfl (by decide) (by decide) (by decide)
  exact ⟨h.1, h.2.1, h.2.2.2.2.1⟩

end McpAndroidChrome
